import Mathlib

/-!
Verification development for the LolliPad beat-making studio.

The embedded code is the drum-machine / level-meter subsystem in
src/utils/AudioAnalyser.ts together with its UI callers (the MusicStudio
element in src/unnamed/part_001).  Machine time values (the audio clock,
tempo, gains) are modelled as rationals; JavaScript out-of-bounds array
reads (which yield `undefined`, a falsy value) are modelled by
`List.getD _ _ false`.
-/

namespace LolliPad

/-- The six drum instruments (src/utils/AudioAnalyser.ts line 42). -/
inductive Instrument
  | kick | snare | hat | clap | tom | cymbal
  deriving DecidableEq

/-- The order in which `scheduleNote` checks the instruments (lines 101-106). -/
def allInstruments : List Instrument :=
  [Instrument.kick, Instrument.snare, Instrument.hat,
   Instrument.clap, Instrument.tom, Instrument.cymbal]

/-- The names of the kits defined in the constructor (lines 71-96). -/
def kitNames : List String := ["Electronic", "808", "Acoustic"]

/-- State of the `DrumMachine` class (src/utils/AudioAnalyser.ts lines 45-64).
`timerOn` models the truthiness of `timerId`; the patterns map each
instrument to its boolean step sequence. -/
structure DrumMachine where
  tempo : ℚ
  nextNoteTime : ℚ
  currentStep : ℕ
  timerOn : Bool
  patterns : Instrument → List Bool
  selectedKit : String

/-- The freshly constructed machine: tempo 120, step 0, stopped, all six
patterns `Array(16).fill(false)`, kit "Electronic" (lines 47-64). -/
def DrumMachine.init : DrumMachine where
  tempo := 120
  nextNoteTime := 0
  currentStep := 0
  timerOn := false
  patterns := fun _ => List.replicate 16 false
  selectedKit := "Electronic"

/-- A pattern flag read `this.patterns.x[beatNumber]`: a JavaScript
out-of-bounds read yields `undefined`, which is falsy. -/
def flagAt (p : List Bool) (i : ℕ) : Bool := p.getD i false

/-- The instruments whose flag at `beat` is truthy, in the order
`scheduleNote` checks them (lines 101-106). -/
def firedAt (m : DrumMachine) (beat : ℕ) : List Instrument :=
  allInstruments.filter (fun i => flagAt (m.patterns i) beat)

/-- `scheduleNote` (lines 99-107): looks the selected kit up by name and
invokes the recipe of every instrument whose flag is set.  If the kit
lookup fails (`kits[selectedKit]` is `undefined`) the first truthy flag
triggers a property access on `undefined`, i.e. a runtime error, modelled
as `none`; if no flag is truthy the undefined kit is never touched. -/
def scheduleNote (m : DrumMachine) (beat : ℕ) : Option (List Instrument) :=
  if m.selectedKit ∈ kitNames then some (firedAt m beat)
  else if firedAt m beat = [] then some [] else none

/-- `nextNote` (lines 109-115): advance the fire-time cursor by a
sixteenth note at the current tempo and the step index modulo 16; the
step event carries the new `currentStep`. -/
def DrumMachine.nextNote (m : DrumMachine) : DrumMachine where
  tempo := m.tempo
  nextNoteTime := m.nextNoteTime + (1 / 4) * (60 / m.tempo)
  currentStep := (m.currentStep + 1) % 16
  timerOn := m.timerOn
  patterns := m.patterns
  selectedKit := m.selectedKit

/-- `scheduler` (lines 117-122), with explicit fuel: while the next fire
time is inside the look-ahead window (`currentTime + 0.1`), schedule the
current step and advance.  Returns the final state and the list of step
events dispatched (each carrying the new step index). -/
def schedulerLoop : ℕ → DrumMachine → ℚ → DrumMachine × List ℕ
  | 0, m, _ => (m, [])
  | f + 1, m, now =>
    if m.nextNoteTime < now + 1 / 10 then
      let r := schedulerLoop f m.nextNote now
      (r.1, m.nextNote.currentStep :: r.2)
    else (m, [])

/-- `start` (lines 124-130): a no-op while running; otherwise reset the
step to 0, seed the fire-time cursor to the present audio clock, run the
scheduler once synchronously, then install the interval timer. -/
def DrumMachine.start (m : DrumMachine) (now : ℚ) (f : ℕ) :
    DrumMachine × List ℕ :=
  if m.timerOn then (m, [])
  else
    let r := schedulerLoop f
      { m with currentStep := 0, nextNoteTime := now } now
    ({ r.1 with timerOn := true }, r.2)

/-- `stop` (lines 132-137): clear the interval timer if one is pending. -/
def DrumMachine.stop (m : DrumMachine) : DrumMachine :=
  if m.timerOn then { m with timerOn := false } else m

/-- `setTempo` (lines 145-147): store the argument verbatim. -/
def DrumMachine.setTempo (m : DrumMachine) (t : ℚ) : DrumMachine :=
  { m with tempo := t }

/-- `setKit` (lines 149-151): store the name verbatim. -/
def DrumMachine.setKit (m : DrumMachine) (name : String) : DrumMachine :=
  { m with selectedKit := name }

/-- `updatePattern` (lines 153-155): replace one instrument's sequence by
the given array verbatim. -/
def DrumMachine.updatePattern (m : DrumMachine) (i : Instrument)
    (p : List Bool) : DrumMachine :=
  { m with patterns := fun j => if j = i then p else m.patterns j }

/-- `MusicStudio.updateBeatmakerTempo` (src/unnamed/part_001 lines
855-858): clamp with `Math.max(60, Math.min(180, newTempo))`, then
forward to `DrumMachine.setTempo`. -/
def updateBeatmakerTempo (m : DrumMachine) (t : ℚ) : DrumMachine :=
  m.setTempo (max 60 (min 180 t))

/-- `AudioAnalyser` FFT size (line 16) and the derived number of
frequency bins. -/
def fftSize : ℕ := 256

/-- `frequencyBinCount` is half the FFT size, so the data array has 128
entries (line 17). -/
def frequencyBinCount : ℕ := fftSize / 2

/-- The level published by `AudioAnalyser.tick` (lines 32-39): the
average of the frequency-bin byte magnitudes divided by 128. -/
def tickLevel (data : List ℕ) : ℚ :=
  ((data.sum : ℚ) / (data.length : ℚ)) / 128

/-- A concrete machine whose kick pattern was replaced by the one-step
array `[true]`, leaving the other five sequences at length 16. -/
def shortKickMachine : DrumMachine :=
  DrumMachine.init.updatePattern Instrument.kick [true]

lemma getD_replicate_false (k n : ℕ) :
    (List.replicate k false).getD n false = false := by
  induction k generalizing n with
  | zero => rfl
  | succ k ih =>
    cases n with
    | zero => rfl
    | succ n => simp [List.getD]

lemma flagAt_append_false (p : List Bool) (k beat : ℕ)
    (h : p.length ≤ beat) :
    flagAt (p ++ List.replicate k false) beat = false := by
  unfold flagAt
  rw [List.getD_append_right _ _ _ _ h]
  exact getD_replicate_false _ _

lemma flagAt_of_length_le (p : List Bool) (beat : ℕ)
    (h : p.length ≤ beat) : flagAt p beat = false := by
  unfold flagAt
  exact List.getD_eq_default _ _ h

/-- Modelled from the spec: the `DrumMachine` variant providing
`setLoopLength` — imported and invoked by `MusicStudio`
(src/unnamed/part_001 lines 788 and 914) but absent from
src/utils/AudioAnalyser.ts, whose `nextNote` always wraps modulo 16.  Per
the spec (§3 Transport State, §4.2 step 1c) this transport carries a loop
length n ∈ {4,8,16} and advances the step index modulo it. -/
structure DrumMachineL where
  tempo : ℚ
  nextNoteTime : ℚ
  currentStep : ℕ
  timerOn : Bool
  loopLength : ℕ
  patterns : Instrument → List Bool
  selectedKit : String

/-- Modelled from the spec: the machine right after `setLoopLength n` —
every sequence is resized to length n and the step index is at its reset
value 0. -/
def initL (n : ℕ) : DrumMachineL where
  tempo := 120
  nextNoteTime := 0
  currentStep := 0
  timerOn := false
  loopLength := n
  patterns := fun _ => List.replicate n false
  selectedKit := "Electronic"

/-- Modelled from the spec (§4.2 steps 1b-1c): advance the fire time by
one sixteenth note at the current tempo and the step index modulo the
loop length; the step event carries the new index. -/
def nextNoteL (m : DrumMachineL) : DrumMachineL :=
  { m with nextNoteTime := m.nextNoteTime + 1 / 4 * (60 / m.tempo),
           currentStep := (m.currentStep + 1) % m.loopLength }

/-- Modelled from the spec (§3 lifecycle): `start` resets the step index
to 0 and seeds the fire-time cursor to the present audio clock. -/
def startL (m : DrumMachineL) (now : ℚ) : DrumMachineL :=
  { m with currentStep := 0, nextNoteTime := now, timerOn := true }

/-- Modelled from the spec (§3 lifecycle): `stop` halts scheduling and
preserves the last step index. -/
def stopL (m : DrumMachineL) : DrumMachineL :=
  { m with timerOn := false }

/-- `setTempo`, as in the source variant (stores the value). -/
def setTempoL (m : DrumMachineL) (t : ℚ) : DrumMachineL :=
  { m with tempo := t }

/-- `setKit`, as in the source variant (stores the name). -/
def setKitL (m : DrumMachineL) (k : String) : DrumMachineL :=
  { m with selectedKit := k }

/-- `updatePattern`, as in the source variant (stores the array). -/
def updatePatternL (m : DrumMachineL) (i : Instrument) (p : List Bool) :
    DrumMachineL :=
  { m with patterns := fun j => if j = i then p else m.patterns j }

/-- Transport states reachable, with the loop length set to n, by any
sequence of start, stop, setTempo, setKit, updatePattern calls and
scheduler-poll step advances. -/
inductive DMLReach (n : ℕ) : DrumMachineL → Prop
  | base : DMLReach n (initL n)
  | start {s now} (h : DMLReach n s) : DMLReach n (startL s now)
  | stop {s} (h : DMLReach n s) : DMLReach n (stopL s)
  | tempo {s t} (h : DMLReach n s) : DMLReach n (setTempoL s t)
  | kit {s k} (h : DMLReach n s) : DMLReach n (setKitL s k)
  | pattern {s i p} (h : DMLReach n s) : DMLReach n (updatePatternL s i p)
  | advance {s} (h : DMLReach n s) : DMLReach n (nextNoteL s)

lemma dmlReach_inv {n : ℕ} {s : DrumMachineL} (hn : 0 < n)
    (h : DMLReach n s) : s.loopLength = n ∧ s.currentStep < n := by
  induction h with
  | base => exact ⟨rfl, hn⟩
  | start h ih => exact ⟨ih.1, hn⟩
  | stop h ih => exact ih
  | tempo h ih => exact ih
  | kit h ih => exact ih
  | pattern h ih => exact ih
  | @advance s h ih =>
    refine ⟨ih.1, ?_⟩
    show (s.currentStep + 1) % s.loopLength < n
    rw [ih.1]
    exact Nat.mod_lt _ hn

/-- Claim C1: in every state of the loop-length transport reachable by
start, stop, setTempo, setKit, updatePattern and scheduler polls with the
loop length set to n ∈ {4,8,16}, the current step index is strictly below
n, and a step advance increments it modulo n, wrapping to 0 after the
last step. -/
theorem c1_step_index_invariant {n : ℕ} {s : DrumMachineL}
    (hn : n = 4 ∨ n = 8 ∨ n = 16) (h : DMLReach n s) :
    s.currentStep < n ∧
    (nextNoteL s).currentStep = (s.currentStep + 1) % n ∧
    (s.currentStep = n - 1 → (nextNoteL s).currentStep = 0) := by
  have hpos : 0 < n := by rcases hn with h1 | h1 | h1 <;> omega
  obtain ⟨hl, hs⟩ := dmlReach_inv hpos h
  refine ⟨hs, ?_, ?_⟩
  · show (s.currentStep + 1) % s.loopLength = (s.currentStep + 1) % n
    rw [hl]
  · intro hlast
    show (s.currentStep + 1) % s.loopLength = 0
    rw [hl, hlast, Nat.sub_add_cancel hpos, Nat.mod_self]

theorem c1_witness :
    ((8 : ℕ) = 4 ∨ (8 : ℕ) = 8 ∨ (8 : ℕ) = 16) ∧ DMLReach 8 (initL 8) ∧
    ((initL 8).currentStep < 8 ∧
     (nextNoteL (initL 8)).currentStep = ((initL 8).currentStep + 1) % 8 ∧
     ((initL 8).currentStep = 8 - 1 → (nextNoteL (initL 8)).currentStep = 0)) :=
  ⟨Or.inr (Or.inl rfl), DMLReach.base,
   c1_step_index_invariant (Or.inr (Or.inl rfl)) DMLReach.base⟩

/-- The three kits of src/utils/AudioAnalyser.ts as an enumeration. -/
inductive Kit
  | electronic | e808 | acoustic
  deriving DecidableEq

/-- The peak output gain each recipe schedules at its fire time, read off
the `gain.gain.setValueAtTime` calls of src/utils/AudioAnalyser.ts
(Electronic lines 179, 195, 210, 225, 241, 256; 808 lines 270, 285, 300,
with clap, tom and cymbal delegated to the Electronic recipes at lines
306-308; Acoustic lines 318, 334, 349, 376, with clap and tom delegated
at lines 355-360). -/
def peakGain : Kit → Instrument → ℚ
  | .electronic, .kick => 1
  | .electronic, .snare => 1
  | .electronic, .hat => 1
  | .electronic, .clap => 1
  | .electronic, .tom => 4 / 5
  | .electronic, .cymbal => 3 / 5
  | .e808, .kick => 1
  | .e808, .snare => 1
  | .e808, .hat => 1 / 2
  | .e808, .clap => 1
  | .e808, .tom => 4 / 5
  | .e808, .cymbal => 3 / 5
  | .acoustic, .kick => 1
  | .acoustic, .snare => 1
  | .acoustic, .hat => 7 / 10
  | .acoustic, .clap => 1
  | .acoustic, .tom => 4 / 5
  | .acoustic, .cymbal => 4 / 5

/-- Modelled from the spec: the `DrumMachine` variant providing
`setVolume` — invoked by MusicStudio (src/unnamed/part_001 lines 787 and
876, part_002 lines 617 and 710) but absent from
src/utils/AudioAnalyser.ts, whose recipes connect straight to the
destination.  Per the spec (§3 Kit, §6), volume is a single scalar gain
factor applied uniformly at the output stage of every synthesized voice,
independent of the selected kit and the pattern contents. -/
structure DrumMachineV where
  volume : ℚ
  tempo : ℚ
  selectedKit : Kit
  patterns : Instrument → List Bool

/-- Modelled from the spec: `setVolume(gain)` stores the master gain. -/
def setVolume (m : DrumMachineV) (g : ℚ) : DrumMachineV :=
  { m with volume := g }

/-- `updatePattern` on the volume-carrying variant. -/
def updatePatternV (m : DrumMachineV) (i : Instrument) (p : List Bool) :
    DrumMachineV :=
  { m with patterns := fun j => if j = i then p else m.patterns j }

/-- Modelled from the spec: the output-stage amplitude of one synthesized
voice — the recipe's scheduled peak gain scaled by the master volume. -/
def voiceOutputPeak (m : DrumMachineV) (k : Kit) (i : Instrument) : ℚ :=
  m.volume * peakGain k i

/-- Claim C7: the control surface provides `setVolume(gain)`, which
changes only the stored master gain, and that gain scales the output of
every voice by the same single factor — the per-voice peak is the master
volume times the kit-specific recipe gain, unchanged by pattern edits. -/
theorem c7_volume_uniform (m : DrumMachineV) (g : ℚ) (k : Kit)
    (i i' : Instrument) (p : List Bool) :
    (setVolume m g).volume = g ∧
    (setVolume m g).tempo = m.tempo ∧
    (setVolume m g).selectedKit = m.selectedKit ∧
    (setVolume m g).patterns = m.patterns ∧
    voiceOutputPeak (setVolume m g) k i = g * peakGain k i ∧
    voiceOutputPeak (updatePatternV (setVolume m g) i' p) k i
      = voiceOutputPeak (setVolume m g) k i :=
  ⟨rfl, rfl, rfl, rfl, rfl, rfl⟩

lemma schedulerLoop_stop (f : ℕ) (m : DrumMachine) (now : ℚ)
    (h : ¬ m.nextNoteTime < now + 1 / 10) :
    schedulerLoop f m now = (m, []) := by
  cases f with
  | zero => rfl
  | succ f =>
    simp only [schedulerLoop]
    rw [if_neg h]

lemma schedulerLoop_patterns :
    ∀ (f : ℕ) (m : DrumMachine) (now : ℚ),
      (schedulerLoop f m now).1.patterns = m.patterns
  | 0, _, _ => rfl
  | f + 1, m, now => by
    simp only [schedulerLoop]
    by_cases h : m.nextNoteTime < now + 1 / 10
    · rw [if_pos h]
      show (schedulerLoop f m.nextNote now).1.patterns = m.patterns
      exact schedulerLoop_patterns f m.nextNote now
    · rw [if_neg h]

lemma stop_patterns (m : DrumMachine) : m.stop.patterns = m.patterns := by
  unfold DrumMachine.stop
  split <;> rfl

/-- Claim C2 counterexample: at tempo 180 (a value the UI clamp allows),
the synchronous scheduler call inside `start()` already dispatches two
step events — the 15/180 s step interval fits twice in the 0.1 s
look-ahead window — so stopping immediately afterwards has observed two
events, not at most one. -/
theorem c2_counterexample :
    ((DrumMachine.init.setTempo 180).start 0 4).2 = [1, 2] ∧
    ¬ ((DrumMachine.init.setTempo 180).start 0 4).2.length ≤ 1 := by
  constructor
  · norm_num [DrumMachine.start, DrumMachine.init, DrumMachine.setTempo,
      schedulerLoop, DrumMachine.nextNote]
  · norm_num [DrumMachine.start, DrumMachine.init, DrumMachine.setTempo,
      schedulerLoop, DrumMachine.nextNote]

/-- Claim C2 (amended): `start()` on a stopped machine followed
immediately by `stop()` leaves every instrument's pattern array unchanged
for every tempo, and dispatches at most one step event provided the tempo
is positive and at most 150 beats per minute (at higher tempos the
sixteenth-note interval `15 / tempo` drops below the 0.1 s look-ahead
window, so the initial synchronous scheduler call already emits more than
one event). -/
theorem c2_start_stop_events (m : DrumMachine) (now : ℚ) (f : ℕ)
    (hoff : m.timerOn = false) :
    ((m.start now f).1.stop).patterns = m.patterns ∧
    (0 < m.tempo → m.tempo ≤ 150 → (m.start now f).2.length ≤ 1) := by
  have hstart : m.start now f =
      ({ (schedulerLoop f { m with currentStep := 0, nextNoteTime := now } now).1
          with timerOn := true },
        (schedulerLoop f { m with currentStep := 0, nextNoteTime := now } now).2) := by
    unfold DrumMachine.start
    rw [if_neg (by simp [hoff])]
  rw [hstart]
  constructor
  · rw [stop_patterns]
    show (schedulerLoop f
      { m with currentStep := 0, nextNoteTime := now } now).1.patterns = m.patterns
    exact schedulerLoop_patterns f _ now
  · intro h0 h150
    have hint : ¬ ({ m with currentStep := 0, nextNoteTime := now } :
        DrumMachine).nextNote.nextNoteTime < now + 1 / 10 := by
      show ¬ now + 1 / 4 * (60 / m.tempo) < now + 1 / 10
      have h15 : (1:ℚ) / 10 ≤ 1 / 4 * (60 / m.tempo) := by
        rw [show (1:ℚ) / 4 * (60 / m.tempo) = 15 / m.tempo by ring,
          div_le_div_iff₀ (by norm_num) h0]
        linarith
      linarith
    show (schedulerLoop f
      { m with currentStep := 0, nextNoteTime := now } now).2.length ≤ 1
    cases f with
    | zero => simp [schedulerLoop]
    | succ f =>
      simp only [schedulerLoop]
      rw [if_pos (show ({ m with currentStep := 0, nextNoteTime := now } :
          DrumMachine).nextNoteTime < now + 1 / 10 from by
        show now < now + 1 / 10
        linarith)]
      show (({ m with currentStep := 0, nextNoteTime := now } :
          DrumMachine).nextNote.currentStep ::
        (schedulerLoop f ({ m with currentStep := 0, nextNoteTime := now } :
          DrumMachine).nextNote now).2).length ≤ 1
      rw [schedulerLoop_stop f _ now hint]
      simp

theorem c2_witness :
    DrumMachine.init.timerOn = false ∧
    ((0:ℚ) < DrumMachine.init.tempo ∧ DrumMachine.init.tempo ≤ 150) ∧
    (((DrumMachine.init.start 0 3).1.stop).patterns =
        DrumMachine.init.patterns ∧
      (DrumMachine.init.start 0 3).2.length ≤ 1) :=
  ⟨rfl,
   ⟨by norm_num [DrumMachine.init], by norm_num [DrumMachine.init]⟩,
   (c2_start_stop_events DrumMachine.init 0 3 rfl).1,
   (c2_start_stop_events DrumMachine.init 0 3 rfl).2
     (by norm_num [DrumMachine.init]) (by norm_num [DrumMachine.init])⟩

/-- Claim C4: `setTempo` changes only the stored tempo — the already
computed next fire time, the current step index, the running flag and all
pattern arrays are untouched — and each `nextNote` advance adds
`(60 / tempo) * 0.25` seconds computed from the tempo read at that
advance, so a tempo change is never retroactive. -/
theorem c4_setTempo_frame (m : DrumMachine) (b : ℚ) :
    (m.setTempo b).nextNoteTime = m.nextNoteTime ∧
    (m.setTempo b).currentStep = m.currentStep ∧
    (m.setTempo b).timerOn = m.timerOn ∧
    (m.setTempo b).patterns = m.patterns ∧
    (m.setTempo b).tempo = b ∧
    m.nextNote.nextNoteTime = m.nextNoteTime + 60 / m.tempo * (1 / 4) ∧
    (m.setTempo b).nextNote.nextNoteTime = m.nextNoteTime + 60 / b * (1 / 4) := by
  refine ⟨rfl, rfl, rfl, rfl, rfl, ?_, ?_⟩ <;>
    · simp only [DrumMachine.nextNote, DrumMachine.setTempo]
      ring

/-- Claim C5 counterexample: a direct `setTempo 300` stores tempo 300,
which does not lie in [60,180] — `DrumMachine.setTempo` does not clamp. -/
theorem c5_counterexample :
    ¬ (60 ≤ (DrumMachine.init.setTempo 300).tempo ∧
       (DrumMachine.init.setTempo 300).tempo ≤ 180) := by
  norm_num [DrumMachine.setTempo, DrumMachine.init]

/-- Claim C5 (amended): the clamp to [60,180] lives in the UI caller
`updateBeatmakerTempo`, which forwards `max 60 (min 180 t)`, so every
tempo set through the UI path is in range, while `DrumMachine.setTempo`
itself stores its argument verbatim. -/
theorem c5_ui_clamps_tempo (m : DrumMachine) (t : ℚ) :
    60 ≤ (updateBeatmakerTempo m t).tempo ∧
    (updateBeatmakerTempo m t).tempo ≤ 180 ∧
    (m.setTempo t).tempo = t := by
  refine ⟨?_, ?_, rfl⟩
  · show (60:ℚ) ≤ max 60 (min 180 t)
    exact le_max_left _ _
  · show max 60 (min 180 t) ≤ (180:ℚ)
    exact max_le (by norm_num) (min_le_left _ _)

/-- Claim C6 counterexample: `setKit "Jazz"` with "Jazz" not a defined kit
does change the selected kit (to the unknown name) instead of rejecting
the input and leaving it unchanged. -/
theorem c6_counterexample :
    "Jazz" ∉ kitNames ∧
    (DrumMachine.init.setKit "Jazz").selectedKit ≠
      DrumMachine.init.selectedKit := by
  constructor
  · decide
  · decide

/-- Claim C6 (amended): `setKit` stores any name unvalidated — the
selected kit becomes the unknown name and nothing is surfaced at
selection — and the failure only appears at playback: with an unknown kit
selected, scheduling any step that has at least one active flag fails on
the undefined kit lookup. -/
theorem c6_unknown_kit_fails_at_playback (m : DrumMachine) (name : String)
    (h : name ∉ kitNames) (beat : ℕ) :
    (m.setKit name).selectedKit = name ∧
    (firedAt (m.setKit name) beat ≠ [] →
      scheduleNote (m.setKit name) beat = none) := by
  refine ⟨rfl, fun hf => ?_⟩
  have hsel : (m.setKit name).selectedKit = name := rfl
  simp [scheduleNote, hsel, h, hf]

set_option maxRecDepth 4096 in
theorem c6_witness :
    "Jazz" ∉ kitNames ∧
    ((shortKickMachine.setKit "Jazz").selectedKit = "Jazz" ∧
     (firedAt (shortKickMachine.setKit "Jazz") 0 ≠ [] →
       scheduleNote (shortKickMachine.setKit "Jazz") 0 = none)) :=
  ⟨by decide, c6_unknown_kit_fails_at_playback shortKickMachine "Jazz" (by decide) 0⟩

/-- Claim C8 (code bug evidence): with all 128 frequency bins at their
maximum byte value 255, `tick` publishes level 255/128 > 1, although the
code's own comment says "Normalize to 0-1 range" and the spec requires a
payload in [0,1]. -/
theorem c8_level_exceeds_one :
    tickLevel (List.replicate frequencyBinCount 255) = 255 / 128 ∧
    ¬ tickLevel (List.replicate frequencyBinCount 255) ≤ 1 := by
  have hs : (List.replicate frequencyBinCount (255:ℕ)).sum = 32640 := by
    rw [List.sum_replicate]
    norm_num [frequencyBinCount, fftSize]
  have hl : (List.replicate frequencyBinCount (255:ℕ)).length = 128 := by
    norm_num [frequencyBinCount, fftSize]
  rw [tickLevel, hs, hl]
  norm_num

/-- `this.drumMachine.updatePattern(instrument, …)` applied for every
instrument in turn, as the MusicStudio constructor and its batch
operations do (src/unnamed/part_001 lines 789-791, 916-927, 930-938,
940-956). -/
def forwardAll (d : DrumMachine) (p : Instrument → List Bool) : DrumMachine :=
  allInstruments.foldl (fun d' i => d'.updatePattern i (p i)) d

lemma forwardAll_patterns (d : DrumMachine) (p : Instrument → List Bool)
    (j : Instrument) : (forwardAll d p).patterns j = p j := by
  cases j <;> rfl

/-- State of the `MusicStudio` element (src/unnamed/part_001): the
sequencer length, its own per-instrument pattern copies, and the wrapped
drum machine every mutation is forwarded to. -/
structure MusicStudio where
  sequencerLength : ℕ
  patterns : Instrument → List Bool
  dm : DrumMachine

/-- The MusicStudio constructor (part_001 lines 764-791): sequencer
length 8, every pattern `Array(8).fill(false)`, all six forwarded to the
drum machine. -/
def MusicStudio.initial : MusicStudio where
  sequencerLength := 8
  patterns := fun _ => List.replicate 8 false
  dm := forwardAll DrumMachine.init fun _ => List.replicate 8 false

/-- `toggleStep` (part_001 lines 889-897): copy the instrument's array,
flip one flag, store it and forward it to the drum machine. -/
def MusicStudio.toggleStep (s : MusicStudio) (i : Instrument) (idx : ℕ) :
    MusicStudio :=
  let newPattern := (s.patterns i).set idx (!(s.patterns i).getD idx false)
  { s with patterns := fun j => if j = i then newPattern else s.patterns j,
           dm := s.dm.updatePattern i newPattern }

/-- The resized array built in `handleSequencerLengthChange` (part_001
lines 919-923): `Array(newLength).fill(false)` with the first
`min oldLength newLength` flags copied over. -/
def resizePattern (old : List Bool) (copyLen n : ℕ) : List Bool :=
  (List.range n).map fun k => if k < copyLen then old.getD k false else false

/-- `handleSequencerLengthChange` (part_001 lines 909-928): a no-op when
the length is unchanged; otherwise store the new length and rebuild (and
forward) every instrument's array at the new length. -/
def MusicStudio.setSequencerLength (s : MusicStudio) (n : ℕ) : MusicStudio :=
  if n = s.sequencerLength then s
  else
    let newPats := fun j =>
      resizePattern (s.patterns j) (min s.sequencerLength n) n
    { sequencerLength := n, patterns := newPats,
      dm := forwardAll s.dm newPats }

/-- `clearAllPatterns` (part_001 lines 930-938). -/
def MusicStudio.clearAll (s : MusicStudio) : MusicStudio :=
  let p : Instrument → List Bool :=
    fun _ => List.replicate s.sequencerLength false
  { s with patterns := p, dm := forwardAll s.dm p }

/-- `handleGeneratePattern` (part_001 lines 940-956): overwrite every
instrument from a premade template, truncated or zero-padded to the
sequencer length. -/
def MusicStudio.generateFrom (s : MusicStudio)
    (preset : Instrument → List Bool) : MusicStudio :=
  let p := fun j =>
    (List.range s.sequencerLength).map fun k => (preset j).getD k false
  { s with patterns := p, dm := forwardAll s.dm p }

/-- MusicStudio histories: the UI operations of part_001, with step
toggles restricted to indices inside the rendered grid
(`stepIndex < sequencerLength` is the only way the template invokes
them). -/
inductive MSReach : MusicStudio → Prop
  | base : MSReach MusicStudio.initial
  | toggle {s i idx} (h : MSReach s)
      (hidx : idx < (s.patterns i).length) : MSReach (s.toggleStep i idx)
  | setLength {s n} (h : MSReach s) : MSReach (s.setSequencerLength n)
  | clear {s} (h : MSReach s) : MSReach s.clearAll
  | generate {s preset} (h : MSReach s) : MSReach (s.generateFrom preset)

lemma msReach_inv {s : MusicStudio} (h : MSReach s) :
    ∀ j, s.dm.patterns j = s.patterns j ∧
      (s.patterns j).length = s.sequencerLength := by
  induction h with
  | base =>
    intro j
    constructor
    · show (forwardAll DrumMachine.init fun _ => List.replicate 8 false).patterns j
        = List.replicate 8 false
      exact forwardAll_patterns _ _ j
    · simp [MusicStudio.initial]
  | @toggle s i idx h hidx ih =>
    intro j
    by_cases hj : j = i
    · subst hj
      refine ⟨?_, ?_⟩
      · simp [MusicStudio.toggleStep, DrumMachine.updatePattern]
      · simp [MusicStudio.toggleStep, (ih j).2]
    · refine ⟨?_, ?_⟩
      · simp [MusicStudio.toggleStep, DrumMachine.updatePattern, hj, (ih j).1]
      · simp [MusicStudio.toggleStep, hj, (ih j).2]
  | @setLength s n h ih =>
    intro j
    unfold MusicStudio.setSequencerLength
    by_cases hn : n = s.sequencerLength
    · rw [if_pos hn]
      exact ih j
    · rw [if_neg hn]
      constructor
      · show (forwardAll s.dm fun j' =>
            resizePattern (s.patterns j') (min s.sequencerLength n) n).patterns j
          = resizePattern (s.patterns j) (min s.sequencerLength n) n
        exact forwardAll_patterns _ _ j
      · show (resizePattern (s.patterns j) (min s.sequencerLength n) n).length = n
        simp [resizePattern]
  | @clear s h ih =>
    intro j
    constructor
    · show (forwardAll s.dm fun _ =>
          List.replicate s.sequencerLength false).patterns j
        = List.replicate s.sequencerLength false
      exact forwardAll_patterns _ _ j
    · show (List.replicate s.sequencerLength false).length = s.sequencerLength
      simp
  | @generate s preset h ih =>
    intro j
    constructor
    · show (forwardAll s.dm fun j' =>
          (List.range s.sequencerLength).map fun k =>
            (preset j').getD k false).patterns j
        = (List.range s.sequencerLength).map fun k => (preset j).getD k false
      exact forwardAll_patterns _ _ j
    · show ((List.range s.sequencerLength).map fun k =>
          (preset j).getD k false).length = s.sequencerLength
      simp

/-- Claim C3 counterexample: one `updatePattern` call with a one-step
array — a call the claim's operation list allows — leaves the kick
sequence at length 1 while the snare sequence still has length 16, so the
six sequences do not all share the same length at all times. -/
theorem c3_counterexample :
    (shortKickMachine.patterns Instrument.kick).length ≠
    (shortKickMachine.patterns Instrument.snare).length := by decide

/-- Claim C3 (amended): after any sequence of the UI operations present
in the source (in-range step toggles, sequencer-length changes, clear,
preset load), all six instrument sequences in the drum machine's pattern
store share the same length; the store itself does not enforce this —
`DrumMachine.updatePattern` keeps any array verbatim, so a direct call
with an array of a different length breaks the property. -/
theorem c3_uniform_lengths {s : MusicStudio} (h : MSReach s) :
    ∀ i j, (s.dm.patterns i).length = (s.dm.patterns j).length := by
  intro i j
  have hi := msReach_inv h i
  have hj := msReach_inv h j
  rw [hi.1, hj.1, hi.2, hj.2]

theorem c3_witness :
    MSReach MusicStudio.initial ∧
    (MusicStudio.initial.dm.patterns Instrument.kick).length =
      (MusicStudio.initial.dm.patterns Instrument.snare).length :=
  ⟨MSReach.base,
   c3_uniform_lengths MSReach.base Instrument.kick Instrument.snare⟩

/-- State of the `AudioAnalyser` level meter (lines 7-40): `rafId` is the
stored animation-frame handle, `pending` the list of callbacks the
browser still has scheduled (most recent first; browser handles are
positive and increasing, `fresh` is the next one), and `events` counts
the audio-level-changed events dispatched so far. -/
structure AnState where
  rafId : Option ℕ
  pending : List ℕ
  fresh : ℕ
  events : ℕ

/-- The freshly constructed meter: no stored handle, nothing pending. -/
def AnState.initial : AnState where
  rafId := none
  pending := []
  fresh := 1
  events := 0

/-- `start()` (lines 21-23): request a frame and overwrite `rafId` — with
no guard against the meter already running. -/
def anStart (s : AnState) : AnState where
  rafId := some s.fresh
  pending := s.fresh :: s.pending
  fresh := s.fresh + 1
  events := s.events

/-- `stop()` (lines 25-30): cancel the frame whose handle is stored, if
any; other pending frames are untouched. -/
def anStop (s : AnState) : AnState :=
  match s.rafId with
  | some id =>
    { s with rafId := none, pending := s.pending.erase id }
  | none => s

/-- `tick()` (lines 32-39): the browser fires a scheduled callback; one
audio-level-changed event is dispatched and the next frame requested. -/
def anTick (s : AnState) (id : ℕ) : AnState where
  rafId := some s.fresh
  pending := s.fresh :: s.pending.erase id
  fresh := s.fresh + 1
  events := s.events + 1

/-- Meter histories in which `start()` is only invoked while the meter is
stopped (no handle stored); `tick` fires only scheduled callbacks. -/
inductive AnReach : AnState → Prop
  | base : AnReach AnState.initial
  | start {s} (h : AnReach s) (hr : s.rafId = none) : AnReach (anStart s)
  | stop {s} (h : AnReach s) : AnReach (anStop s)
  | tick {s id} (h : AnReach s) (hid : id ∈ s.pending) : AnReach (anTick s id)

lemma anReach_pending {s : AnState} (h : AnReach s) :
    s.pending = s.rafId.toList := by
  induction h with
  | base => rfl
  | @start s h hr ih => simp [anStart, ih, hr]
  | @stop s h ih =>
    unfold anStop
    cases hr : s.rafId with
    | none => simpa [hr] using ih
    | some id =>
      rw [hr] at ih
      simp [ih]
  | @tick s id h hid ih =>
    rw [ih] at hid
    cases hr : s.rafId with
    | none =>
      rw [hr] at hid
      simp at hid
    | some j =>
      rw [hr] at hid
      simp at hid
      subst hid
      rw [hr] at ih
      simp [anTick, ih]

/-- Claim C9 counterexample: the call sequence `start(); start(); stop()`
— which the code permits, `start` having no running guard — leaves the
first requested frame pending after `stop()`, and when the browser fires
it, an audio-level-changed event is dispatched with no intervening
`start()`. -/
theorem c9_counterexample :
    (anStop (anStart (anStart AnState.initial))).pending = [1] ∧
    1 ∈ (anStop (anStart (anStart AnState.initial))).pending ∧
    (anTick (anStop (anStart (anStart AnState.initial))) 1).events
      = (anStop (anStart (anStart AnState.initial))).events + 1 := by
  refine ⟨by decide, by decide, rfl⟩

/-- Claim C9 (amended): provided `start()` is never invoked while the
meter is already running, `stop()` leaves no pending animation-frame
callback and no stored handle, so no audio-level-changed event can fire
until the next `start()`. -/
theorem c9_stop_cancels_frame {s : AnState} (h : AnReach s) :
    (anStop s).pending = [] ∧ (anStop s).rafId = none := by
  have hp := anReach_pending h
  unfold anStop
  cases hr : s.rafId with
  | none =>
    rw [hr] at hp
    exact ⟨by simpa using hp, hr⟩
  | some id =>
    rw [hr] at hp
    simp [hp]

theorem c9_witness :
    AnReach (anStart AnState.initial) ∧
    ((anStop (anStart AnState.initial)).pending = [] ∧
     (anStop (anStart AnState.initial)).rafId = none) :=
  ⟨AnReach.start AnReach.base rfl,
   c9_stop_cancels_frame (AnReach.start AnReach.base rfl)⟩

/-- Claim C10: a flag read past the end of an instrument's pattern array
behaves as an inactive step — the read yields false, the instrument's
recipe is not invoked, zero-padding the array changes nothing about the
scheduled step, and with a valid kit the scheduling of that step still
succeeds over the remaining instruments. -/
theorem c10_short_pattern_inactive (m : DrumMachine) (i : Instrument)
    (beat k : ℕ) (h : (m.patterns i).length ≤ beat) :
    flagAt (m.patterns i) beat = false ∧
    i ∉ firedAt m beat ∧
    scheduleNote (m.updatePattern i (m.patterns i ++ List.replicate k false)) beat
      = scheduleNote m beat ∧
    (m.selectedKit ∈ kitNames → (scheduleNote m beat).isSome = true) := by
  have hflag : flagAt (m.patterns i) beat = false := flagAt_of_length_le _ _ h
  have hsame : ∀ j, flagAt ((m.updatePattern i
      (m.patterns i ++ List.replicate k false)).patterns j) beat
      = flagAt (m.patterns j) beat := by
    intro j
    by_cases hj : j = i
    · subst hj
      have hp : (m.updatePattern j
          (m.patterns j ++ List.replicate k false)).patterns j
          = m.patterns j ++ List.replicate k false := by
        simp [DrumMachine.updatePattern]
      rw [hp, flagAt_append_false _ _ _ h, hflag]
    · have hp : (m.updatePattern i
          (m.patterns i ++ List.replicate k false)).patterns j
          = m.patterns j := by
        simp [DrumMachine.updatePattern, hj]
      rw [hp]
  have hfired : firedAt (m.updatePattern i
      (m.patterns i ++ List.replicate k false)) beat = firedAt m beat := by
    unfold firedAt
    exact List.filter_congr fun j _ => hsame j
  refine ⟨hflag, ?_, ?_, ?_⟩
  · intro hmem
    rcases List.mem_filter.mp hmem with ⟨-, hp⟩
    rw [hflag] at hp
    exact Bool.false_ne_true hp
  · unfold scheduleNote
    rw [hfired]
    rfl
  · intro hkit
    simp [scheduleNote, hkit]

theorem c10_witness :
    (shortKickMachine.patterns Instrument.kick).length ≤ 3 ∧
    (flagAt (shortKickMachine.patterns Instrument.kick) 3 = false ∧
     Instrument.kick ∉ firedAt shortKickMachine 3 ∧
     scheduleNote (shortKickMachine.updatePattern Instrument.kick
       (shortKickMachine.patterns Instrument.kick ++ List.replicate 2 false)) 3
       = scheduleNote shortKickMachine 3 ∧
     (shortKickMachine.selectedKit ∈ kitNames →
       (scheduleNote shortKickMachine 3).isSome = true)) :=
  ⟨by decide,
   c10_short_pattern_inactive shortKickMachine Instrument.kick 3 2 (by decide)⟩

end LolliPad
